import Mathlib

/-!
Verification development for the sampling pipeline of `src/inference.py`
(class `InferenceUNetPseudo3D`).

The Python code is shallowly embedded:
* floating-point tensor values are modelled as exact rationals (`ℚ`);
* fixed-rank jnp arrays are modelled as a tuple of dimension sizes plus a
  total indexing function (`T3`, `T4`, `T5` below);
* the external neural networks (unet, vae, text encoder) and PIL resampling
  are out of scope of the repository and are passed in as opaque function
  parameters, constrained only where the spec constrains them;
* Python `assert` statements become an `Except String` result;
* the in-place mutation of caller-supplied image lists in `prepare_inputs`
  is embedded by explicit state passing (the function returns the new list).

Line numbers in comments refer to `src/inference.py`.
-/

namespace MakeAVid

/-! ## Dtypes (construction options and jax promotion), for claim C6 -/

/-- The three storage dtypes accepted by `InferenceUNetPseudo3D.__init__`
(`float32`, `float16`, `bfloat16`, lines 52-56). -/
inductive DType where
  | f32
  | f16
  | bf16
deriving DecidableEq

/-- jax result dtype of arithmetic between two floating dtypes
(jax type promotion lattice restricted to the three dtypes in use:
`f16 * bf16` promotes to `f32`, equal dtypes are preserved, and `f32`
dominates). -/
def promoteDType : DType → DType → DType
  | DType.f32, _ => DType.f32
  | _, DType.f32 => DType.f32
  | DType.f16, DType.f16 => DType.f16
  | DType.bf16, DType.bf16 => DType.bf16
  | _, _ => DType.f32

/-- The dtype requested from `jax.random.normal` at line 288:
`dtype = jnp.float32` is hard-coded there, independent of the configured
storage dtype. -/
def randomNormalRequestedDType (_storage : DType) : DType := DType.f32

/-- Dtype of `params['scheduler'].init_noise_sigma`: the scheduler is loaded
with `dtype = jnp.float32` (lines 106 and 118). -/
def initNoiseSigmaDType : DType := DType.f32

/-- Dtype of `latents` when `jax.lax.fori_loop` is entered at line 318.
Line 288 computes `jax.random.normal(..., dtype = jnp.float32) *
params['scheduler'].init_noise_sigma` and no `astype` is applied to
`latents` between line 288 and the loop at line 318. -/
def latentsAtLoopEntryDType (storage : DType) : DType :=
  promoteDType (randomNormalRequestedDType storage) initNoiseSigmaDType

/-- Modelled from the spec: the claimed noise policy, "sampled in 32-bit
float ... then cast down to the storage dtype before the denoising loop
begins", would leave the latents in the storage dtype at loop entry. -/
def specLatentsAtLoopEntryDType (storage : DType) : DType := storage

/-! ## Elementwise pixel arithmetic of `prepare_inputs`, for claims C3, C4, C7 -/

/-- `(x / 255) * 2 - 1` — the normalization applied to hint (line 161) and
mask (line 168) tensors. -/
def normalizePx (x : ℚ) : ℚ := x / 255 * 2 - 1

/-- First binarization pass, `mask = mask.at[mask < 0.5].set(0)` (line 170),
per element. -/
def binarizeLT (x : ℚ) : ℚ := if x < 1/2 then 0 else x

/-- Second binarization pass, `mask = mask.at[mask >= 0.5].set(1)`
(line 171), applied to the result of the first pass, per element. -/
def binarizeGE (x : ℚ) : ℚ := if 1/2 ≤ x then 1 else x

/-- The two sequential binarization passes of lines 170-171 (both passes are
elementwise, so their sequential composition is the per-element
composition). -/
def binarizePx (x : ℚ) : ℚ := binarizeGE (binarizeLT x)

/-- Lines 170-171 applied to a whole (normalized) mask grid. -/
def binarizeMask (m : List (List ℚ)) : List (List ℚ) :=
  m.map (fun row => row.map binarizePx)

/-- The full per-pixel mask pipeline from a raw 8-bit grayscale value:
`astype(float32)`, normalize (line 168), binarize (lines 170-171). -/
def maskPixel (x : ℕ) : ℚ := binarizePx (normalizePx x)

/-- `hint * (mask < 0.5)` per element (line 173): the boolean array
`mask < 0.5` participates in multiplication as 1 (true) or 0 (false). -/
def maskHintPx (h m : ℚ) : ℚ := h * (if m < 1/2 then 1 else 0)

/-! ## Fixed-rank tensors: dimension sizes plus an indexing function -/

/-- Rank-3 tensor. -/
@[ext]
structure T3 where
  n0 : ℕ
  n1 : ℕ
  n2 : ℕ
  data : ℕ → ℕ → ℕ → ℚ

/-- Rank-4 tensor. -/
@[ext]
structure T4 where
  n0 : ℕ
  n1 : ℕ
  n2 : ℕ
  n3 : ℕ
  data : ℕ → ℕ → ℕ → ℕ → ℚ

/-- Rank-5 tensor. -/
@[ext]
structure T5 where
  n0 : ℕ
  n1 : ℕ
  n2 : ℕ
  n3 : ℕ
  n4 : ℕ
  data : ℕ → ℕ → ℕ → ℕ → ℕ → ℚ

/-- Line 173 at tensor level: the hint has layout `(b, h, w, c)` with three
channels, the mask `(b, h, w, 1)`; the mask's size-1 channel axis broadcasts
across the hint's channel axis, hence the mask is read at channel 0. -/
def applyMaskT4 (hint mask : T4) : T4 :=
  ⟨hint.n0, hint.n1, hint.n2, hint.n3,
   fun b h w c => maskHintPx (hint.data b h w c) (mask.data b h w 0)⟩

/-! ## Classifier-free guidance (line 309), for claim C5 -/

/-- `noise_pred_uncond + cfg * (noise_pred - noise_pred_uncond)`
(line 309), per element. -/
def cfgCombine (cfg uncond cond : ℚ) : ℚ := uncond + cfg * (cond - uncond)

/-- Line 309 at tensor level: both unet outputs have the same shape (the
shape of `latents_input` batch), combined elementwise. -/
def cfgGuide (cfg : ℚ) (uncond cond : T5) : T5 :=
  ⟨uncond.n0, uncond.n1, uncond.n2, uncond.n3, uncond.n4,
   fun a b c d e => cfgCombine cfg (uncond.data a b c d e) (cond.data a b c d e)⟩

/-! ## Decoding and output reassembly (`_generate` lines 319-349,
`generate` lines 240-247), for claims C1 and C9 -/

/-- `einops.rearrange(latents, 'b c f h w -> (b f) c h w')` (line 320):
flat index `i` on the new leading axis corresponds to batch slot
`i / num_frames` and frame `i % num_frames`. -/
def rearrangeBCFHWtoBFCHW (t : T5) : T4 :=
  ⟨t.n0 * t.n2, t.n1, t.n3, t.n4,
   fun i c h w => t.data (i / t.n2) c (i % t.n2) h w⟩

/-- One frame of a rank-4 `(n, c, h, w)` tensor: `latents[step]`
(line 336, where the leading `expand_dims`/`[0]` pair around the decode
call cancels out). -/
def frameAt (t : T4) (i : ℕ) : T3 :=
  ⟨t.n1, t.n2, t.n3, fun a b c => t.data i a b c⟩

/-- Frame `fr` of batch slot `slot` of a rank-5 `(b, c, f, h, w)` latent
tensor, as a `(c, h, w)` frame. -/
def latentFrame (t : T5) (slot fr : ℕ) : T3 :=
  ⟨t.n1, t.n3, t.n4, fun c h w => t.data slot c fr h w⟩

/-- Whole-batch decode, lines 343-347 (`low_vram = False`).  Modelled from
the spec: the external VAE decoder is spatial-only and per-frame ("used
... once per output frame for decoding", §2; "the decoder is
spatial-only", §4.2), so batch decode maps an opaque single-frame decode
`dec` over the leading axis. -/
def batchDecode (dec : T3 → T3) (t : T4) : T4 :=
  ⟨t.n0, (dec (frameAt t 0)).n0, (dec (frameAt t 0)).n1, (dec (frameAt t 0)).n2,
   fun i c h w => (dec (frameAt t i)).data c h w⟩

/-- `images_out.at[step].set(im[0])` (line 339). -/
def setFrame (t : T4) (i : ℕ) (x : T3) : T4 :=
  ⟨t.n0, t.n1, t.n2, t.n3,
   fun a b c d => if a = i then x.data b c d else t.data a b c d⟩

/-- `jnp.zeros((num_images, out_channels, height, width))` (lines 323-331). -/
def zerosT4 (a b c d : ℕ) : T4 := ⟨a, b, c, d, fun _ _ _ _ => 0⟩

/-- One-frame-at-a-time decode into the preallocated buffer, lines 322-341
(`low_vram = True`): `jax.lax.fori_loop(0, num_images, decode_loop,
images_out)` with `decode_loop` decoding `latents[step]` and writing it at
index `step`. -/
def decodeLowVram (dec : T3 → T3) (outC H W : ℕ) (t : T4) : T4 :=
  (List.range t.n0).foldl (fun buf i => setFrame buf i (dec (frameAt t i)))
    (zerosT4 t.n0 outC H W)

/-- `max 0 (min 1 x)`, i.e. `.clip(0, 1)` on line 348. -/
def clip01 (x : ℚ) : ℚ := max 0 (min 1 x)

/-- Line 348, per element:
`((images_out / 2 + 0.5).clip(0, 1) * 255).round().clip(0, 255).astype(uint8)`. -/
def toByte (x : ℚ) : ℚ :=
  ((min 255 (max 0 (round (clip01 (x / 2 + 1/2) * 255))) : ℤ) : ℚ)

/-- Elementwise map over a rank-4 tensor (used for line 348). -/
def mapT4 (g : ℚ → ℚ) (t : T4) : T4 :=
  ⟨t.n0, t.n1, t.n2, t.n3, fun a b c d => g (t.data a b c d)⟩

/-- The image tensor one device contributes: rearrange the final latents
(line 320), decode them by one of the two modes (lines 322-347), and apply
the uint8 conversion (line 348).  `lat` is the per-device latent tensor as
it stands at line 320 (after the `1 / scaling_factor` rescale of
line 319). -/
def deviceImages (lowv : Bool) (dec : T3 → T3) (outC H W : ℕ) (lat : T5) : T4 :=
  mapT4 toByte
    (if lowv then decodeLowVram dec outC H W (rearrangeBCFHWtoBFCHW lat)
     else batchDecode dec (rearrangeBCFHWtoBFCHW lat))

/-- The stacked output of `_p_generate` (lines 353-403): `jax.pmap` adds a
leading device axis of size `dc` to the per-device results. -/
def stackDevices (dc : ℕ) (f : ℕ → T4) : T5 :=
  ⟨dc, (f 0).n0, (f 0).n1, (f 0).n2, (f 0).n3,
   fun dev a b c d => (f dev).data a b c d⟩

/-- `einops.rearrange(images, 'd f c h w -> (d f) h w c')` (line 241).
(`jax.pmap` always produces the leading device axis, so the rank of
`images` at line 240 is 5 and this is the branch taken.) -/
def rearrangeDFCHWtoDFHWC (t : T5) : T4 :=
  ⟨t.n0 * t.n1, t.n3, t.n4, t.n2,
   fun j h w c => t.data (j / t.n1) (j % t.n1) c h w⟩

/-- A PIL image as produced by `Image.fromarray` on an `(h, w, c)` array:
PIL reports `size = (width, height)`. -/
structure PImage where
  width : ℕ
  height : ℕ
  px : ℕ → ℕ → ℕ → ℚ

/-- `[ Image.fromarray(x) for x in images ]` (line 246): one image per
index of the leading axis of the `(n, h, w, c)` array. -/
def fromArrayList (t : T4) : List PImage :=
  (List.range t.n0).map (fun j => ⟨t.n2, t.n1, fun h w c => t.data j h w c⟩)

/-- The full output-assembly path of `generate` (lines 227-247) with the
per-device sampling abstracted by `lat` (device index to final latents at
line 320) and the external VAE decode abstracted by `dec`. -/
def generateImages (dc : ℕ) (lowv : Bool) (dec : T3 → T3) (outC H W : ℕ)
    (lat : ℕ → T5) : List PImage :=
  fromArrayList (rearrangeDFCHWtoDFHWC
    (stackDevices dc (fun dev => deviceImages lowv dec outC H W (lat dev))))

/-! ## PIL images and the resize loop of `prepare_inputs` (lines 149-154),
for claims C2 and C10 -/

/-- A PIL image object as seen by `generate`/`prepare_inputs`: a size and a
pixel accessor (content is irrelevant to the claims about these lines). -/
structure PILImg where
  width : ℕ
  height : ℕ
  px : ℕ → ℕ → ℕ

/-- `im.size` — PIL reports `(width, height)`. -/
def PILImg.size (im : PILImg) : ℕ × ℕ := (im.width, im.height)

/-- `im.resize((width, height), resample = Image.Resampling.LANCZOS)`
(lines 151, 154).  The LANCZOS resampling itself is external PIL code and
is passed in as the opaque `rs`; the resized image has the target size. -/
def PILImg.resizeImg (rs : PILImg → ℕ → ℕ → ℕ → ℕ → ℕ) (w h : ℕ)
    (im : PILImg) : PILImg :=
  ⟨w, h, fun x y => rs im w h x y⟩

/-- Fallback image for out-of-range list reads. -/
def dfltImg : PILImg := ⟨0, 0, fun _ _ => 0⟩

/-- One iteration of the in-place resize loop (lines 149-151): read entry
`i` of the current list state and overwrite it with its resized copy when
its size differs from the requested `(width, height)`. -/
def resizeStep (rs : PILImg → ℕ → ℕ → ℕ → ℕ → ℕ) (w h : ℕ)
    (acc : List PILImg) (i : ℕ) : List PILImg :=
  if (acc.getD i dfltImg).size ≠ (w, h) then
    acc.set i (PILImg.resizeImg rs w h (acc.getD i dfltImg))
  else acc

/-- The in-place resize loop of `prepare_inputs` (lines 149-151 for hints,
identically lines 152-154 for masks), embedded by explicit state passing.
The returned list is the state of the caller-supplied list after the
call. -/
def resizeLoop (rs : PILImg → ℕ → ℕ → ℕ → ℕ → ℕ) (w h : ℕ)
    (l : List PILImg) : List PILImg :=
  (List.range l.length).foldl (resizeStep rs w h) l

/-- The per-entry effect the loop is expected to have (specification side,
for comparison with `resizeLoop`). -/
def resizeEntry (rs : PILImg → ℕ → ℕ → ℕ → ℕ → ℕ) (w h : ℕ)
    (im : PILImg) : PILImg :=
  if im.size ≠ (w, h) then PILImg.resizeImg rs w h im else im

/-! ## The validation prefix of `generate` (lines 191-209), for claim C2 -/

/-- A Python argument that is either one string or a list of strings
(`prompt`, `neg_prompt`). -/
inductive StrOrList where
  | single (s : String)
  | listOf (l : List String)

/-- A Python argument that is either one image or a list of images
(`hint_image`, `mask_image`). -/
inductive ImgOrList where
  | single (im : PILImg)
  | listOf (l : List PILImg)

/-- The call-time arguments of `generate` relevant to validation
(lines 179-189).  Step and frame counts are Python ints, hence `ℤ`. -/
structure GenRequest where
  prompt : StrOrList
  hint_image : ImgOrList
  inference_steps : ℤ
  mask_image : Option ImgOrList
  neg_prompt : StrOrList
  num_frames : ℤ
  width : ℕ
  height : ℕ

/-- Lines 195-196: a single prompt string becomes a one-element list. -/
def promptList : StrOrList → List String
  | StrOrList.single s => [s]
  | StrOrList.listOf l => l

/-- Line 197: `batch_size = len(prompt)` after normalization. -/
def requestBatch (r : GenRequest) : ℕ := (promptList r.prompt).length

/-- `Image.new('L', hint_image[0].size, color = 0)` (line 203). -/
def imageNew (w h : ℕ) : PILImg := ⟨w, h, fun _ _ => 0⟩

/-- Lines 199-200 / 204-205: a single image argument is replicated to batch
size, a list argument is taken as is (the very list object the caller
supplied). -/
def hintList (batch : ℕ) : ImgOrList → List PILImg
  | ImgOrList.single im => List.replicate batch im
  | ImgOrList.listOf l => l

/-- Lines 207-208: a single string argument is replicated to batch size, a
list argument is taken as is. -/
def strList (batch : ℕ) : StrOrList → List String
  | StrOrList.single s => List.replicate batch s
  | StrOrList.listOf l => l

/-- Lines 202-203: `mask_image = None` defaults to a fresh all-zero
grayscale image of `hint_image[0].size`. -/
def maskArgOf (hint : List PILImg) : Option ImgOrList → ImgOrList
  | none => ImgOrList.single
      (imageNew (hint.headD dfltImg).width (hint.headD dfltImg).height)
  | some m => m

/-- The validation-and-normalization prefix of `generate` (lines 191-209),
in source order: the four `assert`s on counts and dimensions, prompt
normalization, the batch-divisibility `assert`, hint normalization and its
length `assert`, default-mask creation, mask normalization and its length
`assert`, negative-prompt normalization and its length `assert`.  A failed
`assert` is an `Except.error`; success returns the normalized
(prompt, neg_prompt, hint, mask) lists handed to `prepare_inputs`. -/
def validateGenerate (dc : ℕ) (r : GenRequest) :
    Except String (List String × List String × List PILImg × List PILImg) :=
  if 0 < r.inference_steps then
    if 0 < r.num_frames then
      if r.width % 32 = 0 then
        if r.height % 32 = 0 then
          if requestBatch r % dc = 0 then
            if (hintList (requestBatch r) r.hint_image).length = requestBatch r then
              if (hintList (requestBatch r)
                    (maskArgOf (hintList (requestBatch r) r.hint_image)
                      r.mask_image)).length = requestBatch r then
                if (strList (requestBatch r) r.neg_prompt).length = requestBatch r then
                  Except.ok (promptList r.prompt,
                    strList (requestBatch r) r.neg_prompt,
                    hintList (requestBatch r) r.hint_image,
                    hintList (requestBatch r)
                      (maskArgOf (hintList (requestBatch r) r.hint_image)
                        r.mask_image))
                else Except.error "number of negative prompts must be equal to batch size"
              else Except.error "number of mask images must be equal to batch size"
            else Except.error "number of hint images must be equal to batch size"
          else Except.error "batch size must be multiple of device count"
        else Except.error "height must be divisible by 32"
      else Except.error "width must be divisible by 32"
    else Except.error "number of frames must be > 0"
  else Except.error "number of inference steps must be > 0"

/-- `generate` staged: the validation prefix (lines 191-209) runs first and
everything after it — `prepare_inputs`, sharding, the `pmap` dispatch and
output reassembly (lines 210-247) — runs only on its success, as the
continuation `rest`. -/
def generateStaged {α : Type} (dc : ℕ)
    (rest : List String × List String × List PILImg × List PILImg → Except String α)
    (r : GenRequest) : Except String α :=
  (validateGenerate dc r).bind rest

/-! ## The inference object and `set_scheduler` (lines 42-121), for claim C8 -/

/-- The state of an `InferenceUNetPseudo3D` object after `__init__`
(lines 43-112): configuration fields, the four model objects, the four
entries of the `params` bundle (keys `'unet'`, `'vae'`, `'text_encoder'`,
`'scheduler'`), and the derived constants.  Model/parameter types are
opaque type parameters. -/
structure InfState (U V TE Tok Sch SchSt P : Type) where
  low_vram : Bool
  dtype : DType
  model_path : String
  unet : U
  vae : V
  text_encoder : TE
  tokenizer : Tok
  scheduler : Sch
  paramsUnet : P
  paramsVae : P
  paramsTextEncoder : P
  paramsScheduler : SchSt
  vae_scale_factor : ℕ
  device_count : ℕ

/-- `set_scheduler` (lines 114-121): reload scheduler and scheduler state
via the external `scheduler_cls.from_pretrained(model_path, 'scheduler',
dtype = jnp.float32)` (passed in as the opaque `loadSched`), then assign
`self.scheduler` and `self.params['scheduler']`. -/
def set_scheduler {U V TE Tok Sch SchSt P SCls : Type}
    (loadSched : SCls → String → DType → Sch × SchSt) (cls : SCls)
    (s : InfState U V TE Tok Sch SchSt P) : InfState U V TE Tok Sch SchSt P :=
  { s with
    scheduler := (loadSched cls s.model_path DType.f32).1
    paramsScheduler := (loadSched cls s.model_path DType.f32).2 }

/-! ## Helper lemmas -/

/-- The two sequential binarization passes reduce to a single threshold. -/
theorem binarizePx_eq (x : ℚ) : binarizePx x = if x < 1/2 then 0 else 1 := by
  unfold binarizePx binarizeLT binarizeGE
  by_cases h : x < 1/2
  · rw [if_pos h, if_pos h, if_neg (by norm_num)]
  · rw [if_neg h, if_neg h, if_pos (not_lt.mp h)]

/-- Per-element idempotence of the hint-masking multiplication. -/
theorem maskHintPx_idem (h m : ℚ) :
    maskHintPx (maskHintPx h m) m = maskHintPx h m := by
  unfold maskHintPx
  by_cases hm : m < 1/2
  · rw [if_pos hm]; ring
  · rw [if_neg hm]; ring

/-! ## Claim theorems -/

/-- C3: after the binarization step of `prepare_inputs` (lines 170-171)
every element of the mask is exactly 0 or exactly 1: every normalized
value strictly below 0.5 is set to 0, every value greater than or equal to
0.5 is set to 1, and no intermediate value survives. -/
theorem mask_binarization_zero_or_one (m : List (List ℚ)) :
    (∀ row ∈ binarizeMask m, ∀ v ∈ row, v = 0 ∨ v = 1) ∧
    binarizeMask m
      = m.map (fun row => row.map (fun x => if x < 1/2 then 0 else 1)) := by
  constructor
  · intro row hrow v hv
    simp only [binarizeMask, List.mem_map] at hrow
    obtain ⟨r0, _, hr0⟩ := hrow
    rw [← hr0] at hv
    simp only [List.mem_map] at hv
    obtain ⟨x, _, hx⟩ := hv
    rw [← hx, binarizePx_eq]
    by_cases h : x < 1/2
    · exact Or.inl (by rw [if_pos h])
    · exact Or.inr (by rw [if_neg h])
  · unfold binarizeMask
    rw [funext binarizePx_eq]

/-- Witness for C3 at a concrete normalized mask grid. -/
theorem mask_binarization_zero_or_one_witness :
    (∀ row ∈ binarizeMask [[0, 1/2, 1/4, -1]], ∀ v ∈ row, v = 0 ∨ v = 1) ∧
    binarizeMask [[0, 1/2, 1/4, -1]]
      = ([[0, 1/2, 1/4, -1]] : List (List ℚ)).map
          (fun row => row.map (fun x => if x < 1/2 then 0 else 1)) :=
  mask_binarization_zero_or_one [[0, 1/2, 1/4, -1]]

/-- C4: the binarization threshold is applied to the normalized tensor
`(x/255)*2 - 1`, not to raw pixel values: a raw 8-bit grayscale value `x`
maps to mask value 1 iff `(x/255)*2 - 1 ≥ 0.5`, i.e. iff `x ≥ 191.25`, and
maps to 0 otherwise. -/
theorem mask_threshold_on_normalized_values (x : ℕ) :
    (maskPixel x = 1 ↔ 1/2 ≤ normalizePx (x : ℚ)) ∧
    (maskPixel x = 1 ↔ (191.25 : ℚ) ≤ (x : ℚ)) ∧
    (maskPixel x = 0 ↔ (x : ℚ) < 191.25) := by
  have hb : maskPixel x = if normalizePx (x : ℚ) < 1/2 then 0 else 1 :=
    binarizePx_eq _
  have hiff : ((1 : ℚ)/2 ≤ normalizePx (x : ℚ)) ↔ ((191.25 : ℚ) ≤ (x : ℚ)) := by
    unfold normalizePx
    constructor <;> intro h <;> [skip; skip] <;> norm_num at h ⊢ <;> linarith
  by_cases h : normalizePx (x : ℚ) < 1/2
  · have h2 : ¬ ((191.25 : ℚ) ≤ (x : ℚ)) :=
      fun hc => absurd (hiff.mpr hc) (not_le.mpr h)
    rw [hb, if_pos h]
    refine ⟨⟨fun h01 => absurd h01 (by norm_num), fun hle => absurd hle (not_le.mpr h)⟩,
      ⟨fun h01 => absurd h01 (by norm_num), fun hle => absurd hle h2⟩,
      fun _ => not_le.mp h2, fun _ => rfl⟩
  · have h1 : (1 : ℚ)/2 ≤ normalizePx (x : ℚ) := not_lt.mp h
    rw [hb, if_neg h]
    refine ⟨⟨fun _ => h1, fun _ => rfl⟩, ⟨fun _ => hiff.mp h1, fun _ => rfl⟩,
      fun h10 => absurd h10 (by norm_num),
      fun hlt => absurd (hiff.mp h1) (not_le.mpr hlt)⟩

/-- C5: with guidance scale `cfg = 1.0`, the classifier-free-guidance
combination of line 309 equals the conditioned prediction, element for
element. -/
theorem cfg_one_equals_cond (uncond cond : T5) (a b c d e : ℕ) :
    (cfgGuide 1 uncond cond).data a b c d e = cond.data a b c d e := by
  show uncond.data a b c d e + 1 * (cond.data a b c d e - uncond.data a b c d e)
      = cond.data a b c d e
  ring

/-- C6: the initial latent tensor is sampled at float32 regardless of the
storage dtype (line 288 hard-codes `dtype = jnp.float32`), but — contrary
to the claim and to the source's own comment "generate random at float32
then cast to dtype" (line 287) — no cast to the storage dtype happens
before the `fori_loop` at line 318: at loop entry the latents are float32,
not the storage dtype (e.g. for the default `float16` configuration). -/
theorem initial_latents_dtype_stays_float32 :
    (∀ storage, randomNormalRequestedDType storage = DType.f32) ∧
    latentsAtLoopEntryDType DType.f16 = DType.f32 ∧
    latentsAtLoopEntryDType DType.f16 ≠ specLatentsAtLoopEntryDType DType.f16 :=
  ⟨fun _ => rfl, rfl, by decide⟩

/-- C7: hint masking (line 173) is idempotent: re-masking an
already-masked hint with the same mask changes nothing.  (This holds for
every mask tensor, in particular for the binarized masks actually used.) -/
theorem hint_masking_idempotent (hint mask : T4) :
    applyMaskT4 (applyMaskT4 hint mask) mask = applyMaskT4 hint mask := by
  show T4.mk _ _ _ _ _ = T4.mk _ _ _ _ _
  congr 1
  funext b h w c
  exact maskHintPx_idem _ _

/-- C8: `set_scheduler` (lines 114-121) replaces only the scheduler object
and the `'scheduler'` entry of the parameter bundle; the `'unet'`, `'vae'`
and `'text_encoder'` parameter trees and every other field of the
inference object are unchanged. -/
theorem set_scheduler_only_replaces_scheduler
    {U V TE Tok Sch SchSt P SCls : Type}
    (loadSched : SCls → String → DType → Sch × SchSt) (cls : SCls)
    (s : InfState U V TE Tok Sch SchSt P) :
    (set_scheduler loadSched cls s).scheduler
        = (loadSched cls s.model_path DType.f32).1 ∧
    (set_scheduler loadSched cls s).paramsScheduler
        = (loadSched cls s.model_path DType.f32).2 ∧
    (set_scheduler loadSched cls s).paramsUnet = s.paramsUnet ∧
    (set_scheduler loadSched cls s).paramsVae = s.paramsVae ∧
    (set_scheduler loadSched cls s).paramsTextEncoder = s.paramsTextEncoder ∧
    (set_scheduler loadSched cls s).low_vram = s.low_vram ∧
    (set_scheduler loadSched cls s).dtype = s.dtype ∧
    (set_scheduler loadSched cls s).model_path = s.model_path ∧
    (set_scheduler loadSched cls s).unet = s.unet ∧
    (set_scheduler loadSched cls s).vae = s.vae ∧
    (set_scheduler loadSched cls s).text_encoder = s.text_encoder ∧
    (set_scheduler loadSched cls s).tokenizer = s.tokenizer ∧
    (set_scheduler loadSched cls s).vae_scale_factor = s.vae_scale_factor ∧
    (set_scheduler loadSched cls s).device_count = s.device_count :=
  ⟨rfl, rfl, rfl, rfl, rfl, rfl, rfl, rfl, rfl, rfl, rfl, rfl, rfl, rfl⟩

/-- A successful validation implies every precondition of `generate`
(lines 191-209) held. -/
theorem validateGenerate_ok_implies {dc : ℕ} {r : GenRequest}
    {v : List String × List String × List PILImg × List PILImg}
    (hok : validateGenerate dc r = Except.ok v) :
    0 < r.inference_steps ∧ 0 < r.num_frames ∧ r.width % 32 = 0 ∧
    r.height % 32 = 0 ∧ requestBatch r % dc = 0 ∧
    (∀ l, r.hint_image = ImgOrList.listOf l → l.length = requestBatch r) ∧
    (∀ l, r.mask_image = some (ImgOrList.listOf l) → l.length = requestBatch r) ∧
    (∀ l, r.neg_prompt = StrOrList.listOf l → l.length = requestBatch r) := by
  unfold validateGenerate at hok
  split_ifs at hok with h1 h2 h3 h4 h5 h6 h7 h8
  refine ⟨h1, h2, h3, h4, h5, ?_, ?_, ?_⟩
  · intro l hl
    rw [hl] at h6
    simpa [hintList] using h6
  · intro l hl
    rw [hl] at h7
    simpa [hintList, maskArgOf] using h7
  · intro l hl
    rw [hl] at h8
    simpa [strList] using h8

/-- C2: for every invalid generation request — non-positive step or frame
count, width or height not divisible by 32, batch size not a multiple of
the device count, or an explicitly supplied hint / mask / negative-prompt
list whose length differs from the batch size — `generate` fails during
the validation prefix (lines 191-209): whatever the rest of the pipeline
(`prepare_inputs`, sharding, device dispatch, lines 210-247) would
compute, the call returns the same validation error, so no input
preparation or device dispatch is performed. -/
theorem generate_rejects_invalid (dc : ℕ) (r : GenRequest)
    (hbad : r.inference_steps ≤ 0 ∨ r.num_frames ≤ 0 ∨ r.width % 32 ≠ 0 ∨
      r.height % 32 ≠ 0 ∨ requestBatch r % dc ≠ 0 ∨
      (∃ l, r.hint_image = ImgOrList.listOf l ∧ l.length ≠ requestBatch r) ∨
      (∃ l, r.mask_image = some (ImgOrList.listOf l) ∧ l.length ≠ requestBatch r) ∨
      (∃ l, r.neg_prompt = StrOrList.listOf l ∧ l.length ≠ requestBatch r)) :
    ∃ e : String, ∀ {α : Type}
      (rest : List String × List String × List PILImg × List PILImg → Except String α),
      generateStaged dc rest r = Except.error e := by
  rcases hval : validateGenerate dc r with e | v
  · exact ⟨e, fun rest => by rw [generateStaged, hval]; rfl⟩
  · exfalso
    obtain ⟨h1, h2, h3, h4, h5, h6, h7, h8⟩ := validateGenerate_ok_implies hval
    rcases hbad with hb | hb | hb | hb | hb | ⟨l, hl, hlen⟩ | ⟨l, hl, hlen⟩ | ⟨l, hl, hlen⟩
    · exact absurd h1 (not_lt.mpr hb)
    · exact absurd h2 (not_lt.mpr hb)
    · exact hb h3
    · exact hb h4
    · exact hb h5
    · exact hlen (h6 l hl)
    · exact hlen (h7 l hl)
    · exact hlen (h8 l hl)

/-- Witness for C2: a request with `inference_steps = 0` is rejected. -/
theorem generate_rejects_invalid_witness :
    ∃ e : String, ∀ {α : Type}
      (rest : List String × List String × List PILImg × List PILImg → Except String α),
      generateStaged 1 rest
        { prompt := StrOrList.single "a"
          hint_image := ImgOrList.single ⟨512, 512, fun _ _ => 0⟩
          inference_steps := 0
          mask_image := none
          neg_prompt := StrOrList.single ""
          num_frames := 24
          width := 512
          height := 512 } = Except.error e :=
  generate_rejects_invalid 1 _ (Or.inl (by decide))

/-- Unfolding lemma for a fully applied `resizeStep` (the partial
application inside the fold is left untouched by rewriting with this). -/
theorem resizeStep_eq (rs : PILImg → ℕ → ℕ → ℕ → ℕ → ℕ) (w h : ℕ)
    (acc : List PILImg) (i : ℕ) :
    resizeStep rs w h acc i =
      if (acc.getD i dfltImg).size ≠ (w, h) then
        acc.set i (PILImg.resizeImg rs w h (acc.getD i dfltImg))
      else acc := rfl

/-- After `n ≤ l.length` iterations of the resize loop, the list has its
original length, the first `n` entries have been rewritten to their
per-entry effect, and the remaining entries are still the originals. -/
theorem resizeLoop_invariant (rs : PILImg → ℕ → ℕ → ℕ → ℕ → ℕ) (w h : ℕ)
    (l : List PILImg) :
    ∀ n, n ≤ l.length →
      ((List.range n).foldl (resizeStep rs w h) l).length = l.length ∧
      ∀ i, (i < n → ((List.range n).foldl (resizeStep rs w h) l).getD i dfltImg
              = resizeEntry rs w h (l.getD i dfltImg)) ∧
           (n ≤ i → ((List.range n).foldl (resizeStep rs w h) l).getD i dfltImg
              = l.getD i dfltImg) := by
  intro n
  induction n with
  | zero =>
    intro _
    exact ⟨rfl, fun i => ⟨fun hlt => absurd hlt (Nat.not_lt_zero i), fun _ => rfl⟩⟩
  | succ n ih =>
    intro hn
    obtain ⟨hlen, hpt⟩ := ih (Nat.le_of_succ_le hn)
    rw [List.range_succ, List.foldl_append, List.foldl_cons, List.foldl_nil]
    have hRn : ((List.range n).foldl (resizeStep rs w h) l).getD n dfltImg
        = l.getD n dfltImg := (hpt n).2 le_rfl
    have hnlt : n < ((List.range n).foldl (resizeStep rs w h) l).length := by
      rw [hlen]; exact hn
    rw [resizeStep_eq, hRn]
    by_cases hc : (l.getD n dfltImg).size ≠ (w, h)
    · rw [if_pos hc]
      refine ⟨by rw [List.length_set, hlen], fun i => ⟨?_, ?_⟩⟩
      · intro hi
        rcases Nat.lt_succ_iff_lt_or_eq.mp hi with hi' | rfl
        · rw [List.getD_eq_getElem?_getD,
            List.getElem?_set_ne (Nat.ne_of_gt hi'),
            ← List.getD_eq_getElem?_getD]
          exact (hpt i).1 hi'
        · rw [List.getD_eq_getElem?_getD, List.getElem?_set_self hnlt]
          rw [resizeEntry, if_pos hc]
          rfl
      · intro hi
        rw [List.getD_eq_getElem?_getD,
          List.getElem?_set_ne (Nat.ne_of_lt (Nat.lt_of_succ_le hi)),
          ← List.getD_eq_getElem?_getD]
        exact (hpt i).2 (Nat.le_of_succ_le hi)
    · rw [if_neg hc]
      refine ⟨hlen, fun i => ⟨?_, fun hi => (hpt i).2 (Nat.le_of_succ_le hi)⟩⟩
      intro hi
      rcases Nat.lt_succ_iff_lt_or_eq.mp hi with hi' | rfl
      · exact (hpt i).1 hi'
      · rw [hRn, resizeEntry, if_neg hc]

/-- C10: passed an explicit list, `prepare_inputs` rewrites the
caller-supplied list in place (lines 149-154, embedded as the state
transformation `resizeLoop`): every entry whose size differs from
`(width, height)` is replaced in the caller's list by its resized copy —
a different image object — and entries already of the right size are left
alone. -/
theorem prepare_inputs_rewrites_caller_list
    (rs : PILImg → ℕ → ℕ → ℕ → ℕ → ℕ) (w h : ℕ) (l : List PILImg) :
    (resizeLoop rs w h l).length = l.length ∧
    ∀ i, i < l.length →
      (((l.getD i dfltImg).size ≠ (w, h) →
          (resizeLoop rs w h l).getD i dfltImg
              = PILImg.resizeImg rs w h (l.getD i dfltImg) ∧
          (resizeLoop rs w h l).getD i dfltImg ≠ l.getD i dfltImg) ∧
       ((l.getD i dfltImg).size = (w, h) →
          (resizeLoop rs w h l).getD i dfltImg = l.getD i dfltImg)) := by
  obtain ⟨hlen, hpt⟩ := resizeLoop_invariant rs w h l l.length le_rfl
  refine ⟨hlen, fun i hi => ⟨?_, ?_⟩⟩
  · intro hne
    have hg : (resizeLoop rs w h l).getD i dfltImg
        = resizeEntry rs w h (l.getD i dfltImg) := (hpt i).1 hi
    rw [hg, resizeEntry, if_pos hne]
    refine ⟨rfl, fun heq => ?_⟩
    have hsz : (PILImg.resizeImg rs w h (l.getD i dfltImg)).size
        = (l.getD i dfltImg).size := congrArg PILImg.size heq
    exact hne (by rw [← hsz]; rfl)
  · intro heq
    have hg : (resizeLoop rs w h l).getD i dfltImg
        = resizeEntry rs w h (l.getD i dfltImg) := (hpt i).1 hi
    rw [hg, resizeEntry, if_neg (fun hne => hne heq)]

/-- Witness for C10 at a concrete two-image list, one of the wrong size. -/
theorem prepare_inputs_rewrites_caller_list_witness :
    (resizeLoop (fun _ _ _ _ _ => 0) 64 64
        [⟨100, 100, fun _ _ => 0⟩, ⟨64, 64, fun _ _ => 0⟩]).length
      = [(⟨100, 100, fun _ _ => 0⟩ : PILImg), ⟨64, 64, fun _ _ => 0⟩].length ∧
    ∀ i, i < [(⟨100, 100, fun _ _ => 0⟩ : PILImg), ⟨64, 64, fun _ _ => 0⟩].length →
      ((([(⟨100, 100, fun _ _ => 0⟩ : PILImg), ⟨64, 64, fun _ _ => 0⟩].getD i
            dfltImg).size ≠ (64, 64) →
          (resizeLoop (fun _ _ _ _ _ => 0) 64 64
              [⟨100, 100, fun _ _ => 0⟩, ⟨64, 64, fun _ _ => 0⟩]).getD i dfltImg
            = PILImg.resizeImg (fun _ _ _ _ _ => 0) 64 64
                ([(⟨100, 100, fun _ _ => 0⟩ : PILImg),
                  ⟨64, 64, fun _ _ => 0⟩].getD i dfltImg) ∧
          (resizeLoop (fun _ _ _ _ _ => 0) 64 64
              [⟨100, 100, fun _ _ => 0⟩, ⟨64, 64, fun _ _ => 0⟩]).getD i dfltImg
            ≠ [(⟨100, 100, fun _ _ => 0⟩ : PILImg),
                ⟨64, 64, fun _ _ => 0⟩].getD i dfltImg) ∧
       (([(⟨100, 100, fun _ _ => 0⟩ : PILImg), ⟨64, 64, fun _ _ => 0⟩].getD i
            dfltImg).size = (64, 64) →
          (resizeLoop (fun _ _ _ _ _ => 0) 64 64
              [⟨100, 100, fun _ _ => 0⟩, ⟨64, 64, fun _ _ => 0⟩]).getD i dfltImg
            = [(⟨100, 100, fun _ _ => 0⟩ : PILImg),
                ⟨64, 64, fun _ _ => 0⟩].getD i dfltImg)) :=
  prepare_inputs_rewrites_caller_list (fun _ _ _ _ _ => 0) 64 64
    [⟨100, 100, fun _ _ => 0⟩, ⟨64, 64, fun _ _ => 0⟩]

/-- Unfolding lemma for a fully applied `setFrame` data read. -/
theorem setFrame_data (t : T4) (i : ℕ) (x : T3) (a b c d : ℕ) :
    (setFrame t i x).data a b c d
      = if a = i then x.data b c d else t.data a b c d := rfl

/-- Folding `setFrame` writes over any index list preserves the buffer
dimensions. -/
theorem foldl_setFrame_dims (g : ℕ → T3) (l : List ℕ) :
    ∀ b : T4,
      ((l.foldl (fun buf i => setFrame buf i (g i)) b).n0 = b.n0 ∧
       (l.foldl (fun buf i => setFrame buf i (g i)) b).n1 = b.n1 ∧
       (l.foldl (fun buf i => setFrame buf i (g i)) b).n2 = b.n2 ∧
       (l.foldl (fun buf i => setFrame buf i (g i)) b).n3 = b.n3) := by
  induction l with
  | nil => intro b; exact ⟨rfl, rfl, rfl, rfl⟩
  | cons x xs ih =>
    intro b
    rw [List.foldl_cons]
    exact ih (setFrame b x (g x))

/-- Folding `setFrame` writes over `0, 1, ..., n-1`: indices below `n` hold
the written frame, the rest still hold the initial buffer. -/
theorem foldl_setFrame_data_range (g : ℕ → T3) :
    ∀ (n : ℕ) (b : T4) (a c d e : ℕ),
      ((List.range n).foldl (fun buf i => setFrame buf i (g i)) b).data a c d e
        = if a < n then (g a).data c d e else b.data a c d e := by
  intro n
  induction n with
  | zero =>
    intro b a c d e
    rw [List.range_zero, List.foldl_nil, if_neg (Nat.not_lt_zero a)]
  | succ n ih =>
    intro b a c d e
    rw [List.range_succ, List.foldl_append, List.foldl_cons, List.foldl_nil]
    rw [setFrame_data]
    by_cases hae : a = n
    · subst hae
      rw [if_pos rfl, if_pos (Nat.lt_succ_self a)]
    · rw [if_neg hae, ih b a c d e]
      by_cases h2 : a < n
      · rw [if_pos h2, if_pos (Nat.lt_succ_of_lt h2)]
      · rw [if_neg h2, if_neg (by omega)]

/-- The low-vram decode keeps the preallocated buffer dimensions
`(num_images, out_channels, height, width)` of lines 323-331. -/
theorem decodeLowVram_dims (dec : T3 → T3) (outC H W : ℕ) (t : T4) :
    (decodeLowVram dec outC H W t).n0 = t.n0 ∧
    (decodeLowVram dec outC H W t).n1 = outC ∧
    (decodeLowVram dec outC H W t).n2 = H ∧
    (decodeLowVram dec outC H W t).n3 = W :=
  foldl_setFrame_dims (fun i => dec (frameAt t i)) (List.range t.n0)
    (zerosT4 t.n0 outC H W)

/-- Within bounds, the low-vram decode buffer holds exactly the decoded
frames. -/
theorem decodeLowVram_data (dec : T3 → T3) (outC H W : ℕ) (t : T4)
    (a c d e : ℕ) (ha : a < t.n0) :
    (decodeLowVram dec outC H W t).data a c d e
      = (dec (frameAt t a)).data c d e := by
  have h := foldl_setFrame_data_range (fun i => dec (frameAt t i)) t.n0
      (zerosT4 t.n0 outC H W) a c d e
  rw [if_pos ha] at h
  exact h

/-- C9: the two decode modes agree: decoding one frame at a time into the
preallocated accumulator (`low_vram = True`, lines 322-341) produces,
frame for frame, the same dimensions and pixel values as decoding the
whole batch in one call (`low_vram = False`, lines 343-347), both followed
by the uint8 conversion of line 348.  The hypothesis on `dec` is the
spec's description of the external VAE decoder output shape
`(out_channels, height, width)`. -/
theorem decode_modes_agree (dec : T3 → T3) (outC H W : ℕ) (t : T4)
    (hdec : ∀ x, (dec x).n0 = outC ∧ (dec x).n1 = H ∧ (dec x).n2 = W) :
    (mapT4 toByte (decodeLowVram dec outC H W t)).n0
        = (mapT4 toByte (batchDecode dec t)).n0 ∧
    (mapT4 toByte (decodeLowVram dec outC H W t)).n1
        = (mapT4 toByte (batchDecode dec t)).n1 ∧
    (mapT4 toByte (decodeLowVram dec outC H W t)).n2
        = (mapT4 toByte (batchDecode dec t)).n2 ∧
    (mapT4 toByte (decodeLowVram dec outC H W t)).n3
        = (mapT4 toByte (batchDecode dec t)).n3 ∧
    ∀ a, a < t.n0 → ∀ c d e : ℕ,
      (mapT4 toByte (decodeLowVram dec outC H W t)).data a c d e
        = (mapT4 toByte (batchDecode dec t)).data a c d e := by
  obtain ⟨d0, d1, d2, d3⟩ := decodeLowVram_dims dec outC H W t
  refine ⟨d0, d1.trans (hdec _).1.symm, d2.trans (hdec _).2.1.symm,
    d3.trans (hdec _).2.2.symm, ?_⟩
  intro a ha c d e
  show toByte ((decodeLowVram dec outC H W t).data a c d e)
      = toByte ((dec (frameAt t a)).data c d e)
  rw [decodeLowVram_data dec outC H W t a c d e ha]

/-- Witness for C9 at a concrete decoder and latent batch. -/
theorem decode_modes_agree_witness :
    (mapT4 toByte (decodeLowVram (fun _ => ⟨1, 1, 1, fun _ _ _ => 1/2⟩) 1 1 1
          ⟨2, 3, 1, 1, fun _ _ _ _ => 1⟩)).n0
        = (mapT4 toByte (batchDecode (fun _ => ⟨1, 1, 1, fun _ _ _ => 1/2⟩)
            ⟨2, 3, 1, 1, fun _ _ _ _ => 1⟩)).n0 ∧
    (mapT4 toByte (decodeLowVram (fun _ => ⟨1, 1, 1, fun _ _ _ => 1/2⟩) 1 1 1
          ⟨2, 3, 1, 1, fun _ _ _ _ => 1⟩)).n1
        = (mapT4 toByte (batchDecode (fun _ => ⟨1, 1, 1, fun _ _ _ => 1/2⟩)
            ⟨2, 3, 1, 1, fun _ _ _ _ => 1⟩)).n1 ∧
    (mapT4 toByte (decodeLowVram (fun _ => ⟨1, 1, 1, fun _ _ _ => 1/2⟩) 1 1 1
          ⟨2, 3, 1, 1, fun _ _ _ _ => 1⟩)).n2
        = (mapT4 toByte (batchDecode (fun _ => ⟨1, 1, 1, fun _ _ _ => 1/2⟩)
            ⟨2, 3, 1, 1, fun _ _ _ _ => 1⟩)).n2 ∧
    (mapT4 toByte (decodeLowVram (fun _ => ⟨1, 1, 1, fun _ _ _ => 1/2⟩) 1 1 1
          ⟨2, 3, 1, 1, fun _ _ _ _ => 1⟩)).n3
        = (mapT4 toByte (batchDecode (fun _ => ⟨1, 1, 1, fun _ _ _ => 1/2⟩)
            ⟨2, 3, 1, 1, fun _ _ _ _ => 1⟩)).n3 ∧
    ∀ a, a < (⟨2, 3, 1, 1, fun _ _ _ _ => 1⟩ : T4).n0 → ∀ c d e : ℕ,
      (mapT4 toByte (decodeLowVram (fun _ => ⟨1, 1, 1, fun _ _ _ => 1/2⟩) 1 1 1
            ⟨2, 3, 1, 1, fun _ _ _ _ => 1⟩)).data a c d e
        = (mapT4 toByte (batchDecode (fun _ => ⟨1, 1, 1, fun _ _ _ => 1/2⟩)
            ⟨2, 3, 1, 1, fun _ _ _ _ => 1⟩)).data a c d e :=
  decode_modes_agree (fun _ => ⟨1, 1, 1, fun _ _ _ => 1/2⟩) 1 1 1
    ⟨2, 3, 1, 1, fun _ _ _ _ => 1⟩ (fun _ => ⟨rfl, rfl, rfl⟩)

/-- Extracting frame `slot * num_frames + fr` of the rearranged latents
(line 320) reads batch slot `slot`, frame `fr` of the original 5-D latent
tensor. -/
theorem frameAt_rearrange (t : T5) (slot fr : ℕ) (hfr : fr < t.n2) :
    frameAt (rearrangeBCFHWtoBFCHW t) (slot * t.n2 + fr)
      = latentFrame t slot fr := by
  have hpos : 0 < t.n2 := Nat.lt_of_le_of_lt (Nat.zero_le fr) hfr
  have hdiv : (slot * t.n2 + fr) / t.n2 = slot := by
    rw [Nat.add_comm, Nat.mul_comm, Nat.add_mul_div_left _ _ hpos,
      Nat.div_eq_of_lt hfr, Nat.zero_add]
  have hmod : (slot * t.n2 + fr) % t.n2 = fr := by
    rw [Nat.add_comm, Nat.mul_comm, Nat.add_mul_mod_self_left,
      Nat.mod_eq_of_lt hfr]
  refine T3.ext rfl rfl rfl
    (funext fun a => funext fun b => funext fun c => ?_)
  show t.data ((slot * t.n2 + fr) / t.n2) a ((slot * t.n2 + fr) % t.n2) b c
      = t.data slot a fr b c
  rw [hdiv, hmod]

/-- Dimensions of one device's image tensor, in either decode mode. -/
theorem deviceImages_dims (lowv : Bool) (dec : T3 → T3) (outC H W : ℕ)
    (lat : T5)
    (hdec : ∀ x, (dec x).n0 = outC ∧ (dec x).n1 = H ∧ (dec x).n2 = W) :
    (deviceImages lowv dec outC H W lat).n0 = lat.n0 * lat.n2 ∧
    (deviceImages lowv dec outC H W lat).n1 = outC ∧
    (deviceImages lowv dec outC H W lat).n2 = H ∧
    (deviceImages lowv dec outC H W lat).n3 = W := by
  cases lowv
  · exact ⟨rfl, (hdec _).1, (hdec _).2.1, (hdec _).2.2⟩
  · exact decodeLowVram_dims dec outC H W (rearrangeBCFHWtoBFCHW lat)

/-- In-bounds pixels of one device's image tensor, in either decode
mode: entry `i` is the uint8-converted decode of frame `i` of the
rearranged latents. -/
theorem deviceImages_data (lowv : Bool) (dec : T3 → T3) (outC H W : ℕ)
    (lat : T5) (i c d e : ℕ) (hi : i < lat.n0 * lat.n2) :
    (deviceImages lowv dec outC H W lat).data i c d e
      = toByte ((dec (frameAt (rearrangeBCFHWtoBFCHW lat) i)).data c d e) := by
  cases lowv
  · rfl
  · show toByte ((decodeLowVram dec outC H W (rearrangeBCFHWtoBFCHW lat)).data i c d e)
        = _
    rw [decodeLowVram_data dec outC H W (rearrangeBCFHWtoBFCHW lat) i c d e hi]

/-- In-bounds element of the image list produced by line 246. -/
theorem fromArrayList_getD (t : T4) (j : ℕ) (hj : j < t.n0) :
    (fromArrayList t).getD j ⟨0, 0, fun _ _ _ => 0⟩
      = ⟨t.n2, t.n1, fun h w c => t.data j h w c⟩ := by
  unfold fromArrayList
  rw [List.getD_eq_getElem?_getD, List.getElem?_map, List.getElem?_range hj]
  rfl

/-- Pixels of the assembled output: image `j` of the flat list reads
device `j / per_device`, in-device index `j % per_device`. -/
theorem generateImages_px (dc : ℕ) (lowv : Bool) (dec : T3 → T3)
    (outC H W : ℕ) (lat : ℕ → T5) (j h w c : ℕ)
    (hj : j < dc * (deviceImages lowv dec outC H W (lat 0)).n0) :
    ((generateImages dc lowv dec outC H W lat).getD j
        ⟨0, 0, fun _ _ _ => 0⟩).px h w c
      = (deviceImages lowv dec outC H W
          (lat (j / (deviceImages lowv dec outC H W (lat 0)).n0))).data
          (j % (deviceImages lowv dec outC H W (lat 0)).n0) c h w := by
  unfold generateImages
  rw [fromArrayList_getD _ _ hj]
  rfl

/-- C1: for every valid request (device count dividing the batch size,
per-device final latents of `batch/dc` slots and `F` frames, decoder
emitting `(outC, H, W)` frames as the spec states), `generate` returns
exactly `batch * F` images, each of PIL size `(W, H)`, ordered first by
global batch slot (device-major) and then by frame index within the slot:
the image at flat index `s * F + fr` is the decoded frame `fr` of global
slot `s`, which lives on device `s / (batch/dc)` at in-device slot
`s % (batch/dc)`. -/
theorem generate_output_count_size_order
    (dc batch F outC H W : ℕ) (lowv : Bool) (dec : T3 → T3) (lat : ℕ → T5)
    (hdvd : dc ∣ batch)
    (hlat : ∀ dev, (lat dev).n0 = batch / dc ∧ (lat dev).n2 = F)
    (hdec : ∀ x, (dec x).n0 = outC ∧ (dec x).n1 = H ∧ (dec x).n2 = W) :
    (generateImages dc lowv dec outC H W lat).length = batch * F ∧
    (∀ im ∈ generateImages dc lowv dec outC H W lat,
      im.width = W ∧ im.height = H) ∧
    (∀ s fr, s < batch → fr < F → ∀ h w c,
      ((generateImages dc lowv dec outC H W lat).getD (s * F + fr)
          ⟨0, 0, fun _ _ _ => 0⟩).px h w c
        = toByte ((dec (latentFrame (lat (s / (batch / dc)))
            (s % (batch / dc)) fr)).data c h w)) := by
  have hbatch : dc * (batch / dc) = batch := Nat.mul_div_cancel' hdvd
  have hdevn : ∀ dev,
      (deviceImages lowv dec outC H W (lat dev)).n0 = batch / dc * F ∧
      (deviceImages lowv dec outC H W (lat dev)).n1 = outC ∧
      (deviceImages lowv dec outC H W (lat dev)).n2 = H ∧
      (deviceImages lowv dec outC H W (lat dev)).n3 = W := by
    intro dev
    obtain ⟨a, b, c, d⟩ := deviceImages_dims lowv dec outC H W (lat dev) hdec
    exact ⟨by rw [a, (hlat dev).1, (hlat dev).2], b, c, d⟩
  refine ⟨?_, ?_, ?_⟩
  · show (fromArrayList _).length = batch * F
    unfold fromArrayList
    rw [List.length_map, List.length_range]
    show dc * (deviceImages lowv dec outC H W (lat 0)).n0 = batch * F
    rw [(hdevn 0).1, ← Nat.mul_assoc, hbatch]
  · intro im him
    unfold generateImages fromArrayList at him
    rw [List.mem_map] at him
    obtain ⟨j, _, hj⟩ := him
    rw [← hj]
    exact ⟨(hdevn 0).2.2.2, (hdevn 0).2.2.1⟩
  · intro s fr hs hfr h w c
    have hF : 0 < F := Nat.lt_of_le_of_lt (Nat.zero_le fr) hfr
    have hbper : 0 < batch / dc := by
      rcases Nat.eq_zero_or_pos (batch / dc) with h0 | h0
      · rw [h0, Nat.mul_zero] at hbatch
        omega
      · exact h0
    have hPpos : 0 < batch / dc * F := Nat.mul_pos hbper hF
    have hrloc : s % (batch / dc) < batch / dc := Nat.mod_lt s hbper
    have hin_lt : s % (batch / dc) * F + fr < batch / dc * F := by
      calc s % (batch / dc) * F + fr
          < s % (batch / dc) * F + F := Nat.add_lt_add_left hfr _
        _ = (s % (batch / dc) + 1) * F := by ring
        _ ≤ batch / dc * F := Nat.mul_le_mul_right F (Nat.succ_le_of_lt hrloc)
    have hq : batch / dc * (s / (batch / dc)) + s % (batch / dc) = s :=
      Nat.div_add_mod s (batch / dc)
    have hexp : s * F + fr
        = (s % (batch / dc) * F + fr) + (batch / dc * F) * (s / (batch / dc)) := by
      conv_lhs => rw [← hq]
      ring
    have hjdiv : (s * F + fr) / (batch / dc * F) = s / (batch / dc) := by
      rw [hexp, Nat.add_mul_div_left _ _ hPpos, Nat.div_eq_of_lt hin_lt,
        Nat.zero_add]
    have hjmod : (s * F + fr) % (batch / dc * F) = s % (batch / dc) * F + fr := by
      rw [hexp, Nat.add_mul_mod_self_left, Nat.mod_eq_of_lt hin_lt]
    have hjlt : s * F + fr < dc * (deviceImages lowv dec outC H W (lat 0)).n0 := by
      rw [(hdevn 0).1, ← Nat.mul_assoc, hbatch]
      calc s * F + fr < s * F + F := Nat.add_lt_add_left hfr _
        _ = (s + 1) * F := by ring
        _ ≤ batch * F := Nat.mul_le_mul_right F (Nat.succ_le_of_lt hs)
    rw [generateImages_px dc lowv dec outC H W lat (s * F + fr) h w c hjlt,
      (hdevn 0).1, hjdiv, hjmod]
    have hin_lt' : s % (batch / dc) * F + fr
        < (lat (s / (batch / dc))).n0 * (lat (s / (batch / dc))).n2 := by
      rw [(hlat _).1, (hlat _).2]
      exact hin_lt
    rw [deviceImages_data lowv dec outC H W (lat (s / (batch / dc)))
      (s % (batch / dc) * F + fr) c h w hin_lt']
    have hfr' : fr < (lat (s / (batch / dc))).n2 := by
      rw [(hlat _).2]
      exact hfr
    have hframe := frameAt_rearrange (lat (s / (batch / dc)))
      (s % (batch / dc)) fr hfr'
    rw [(hlat _).2] at hframe
    rw [hframe]

/-- Witness for C1: one device, one batch slot, one frame, a constant
decoder. -/
theorem generate_output_count_size_order_witness :
    (generateImages 1 true (fun _ => ⟨1, 32, 32, fun _ _ _ => 0⟩) 1 32 32
        (fun _ => ⟨1, 4, 1, 3, 3, fun _ _ _ _ _ => 0⟩)).length = 1 * 1 ∧
    (∀ im ∈ generateImages 1 true (fun _ => ⟨1, 32, 32, fun _ _ _ => 0⟩) 1 32 32
        (fun _ => ⟨1, 4, 1, 3, 3, fun _ _ _ _ _ => 0⟩),
      im.width = 32 ∧ im.height = 32) ∧
    (∀ s fr, s < 1 → fr < 1 → ∀ h w c,
      ((generateImages 1 true (fun _ => ⟨1, 32, 32, fun _ _ _ => 0⟩) 1 32 32
          (fun _ => ⟨1, 4, 1, 3, 3, fun _ _ _ _ _ => 0⟩)).getD (s * 1 + fr)
          ⟨0, 0, fun _ _ _ => 0⟩).px h w c
        = toByte (((fun _ => (⟨1, 32, 32, fun _ _ _ => 0⟩ : T3))
            (latentFrame ((fun _ => (⟨1, 4, 1, 3, 3, fun _ _ _ _ _ => 0⟩ : T5))
              (s / (1 / 1))) (s % (1 / 1)) fr)).data c h w)) :=
  generate_output_count_size_order 1 1 1 1 32 32 true
    (fun _ => ⟨1, 32, 32, fun _ _ _ => 0⟩)
    (fun _ => ⟨1, 4, 1, 3, 3, fun _ _ _ _ _ => 0⟩)
    ⟨1, rfl⟩ (fun _ => ⟨rfl, rfl⟩) (fun _ => ⟨rfl, rfl, rfl⟩)

end MakeAVid
